import Mathlib

/-!
Verification of the privacyscrub-v5 video redaction pipeline.

Shallow embedding of the orchestration core: the policy resolver
(`services/gpu-worker/config.py`), the chunk planner and dispatcher
(`services/orchestrator/main.py`, `ingest_video`), the progress aggregator
and worker chunk processing (`services/gpu-worker/main.py`, `process_chunk`),
the stitcher (`services/orchestrator/main.py`, `stitch_video`) and the
erasure endpoint (`delete_job`).

External collaborators (Google Cloud Storage, Firestore, Cloud Tasks, ffmpeg,
OpenCV) are modelled abstractly: the blob store is a list of present paths,
the job record is a structure, Firestore's transactional increment is a pure
read-increment-write, and external media operations are assumed to succeed.
Floating-point durations and thresholds are modelled as rationals; the
numeric operations involved (comparison with constants, `max`) are exact on
the literals the code uses, so no rounding behaviour is lost.
-/

namespace PrivacyScrub

/-! ## Policy resolver (`services/gpu-worker/config.py`) -/

/-- `AnonymizeMode` enum from config.py. -/
inductive AnonymizeMode where
  | blur
  | pixelate
  | black_box
deriving DecidableEq, Repr

/-- `AnonymizeMode(value)` in Python: parse a string into the enum,
raising `ValueError` (here: `none`) when the value is unrecognized. -/
def parseAnonymizeMode (s : String) : Option AnonymizeMode :=
  if s = "blur" then some .blur
  else if s = "pixelate" then some .pixelate
  else if s = "black_box" then some .black_box
  else none

/-- `PrivacyConfig` pydantic model from config.py, with its field defaults. -/
structure PrivacyConfig where
  target_faces : Bool := true
  target_plates : Bool := true
  target_logos : Bool := false
  target_text : Bool := false
  mode : AnonymizeMode := .blur
  confidence_threshold : ℚ := 0.4
  enable_heuristics : Bool := true
deriving DecidableEq, Repr

/-- The user-override dict passed to `get_config_for_profile`. Recognized
keys are `target_logos`, `target_text`, `mode`, `confidence_threshold`;
`none` models an absent key. Unrecognized keys are never read by the code,
so they are not represented. -/
structure UserOverrides where
  target_logos : Option Bool := none
  target_text : Option Bool := none
  mode : Option String := none
  confidence_threshold : Option ℚ := none
deriving DecidableEq, Repr

/-- `user_overrides.get(key)` truthiness for a boolean key: absent (`None`)
and `False` are both falsy. -/
def truthy (o : Option Bool) : Bool := o.getD false

/-- `get_config_for_profile` from config.py. The Python `profile` argument is
a string compared against the `ComplianceProfile` str-enum members; we keep it
a string so unrecognized profiles fall through all branches, as in the code. -/
def get_config_for_profile (profile : String) (user_overrides : UserOverrides) :
    PrivacyConfig :=
  -- 1. Start with Default
  let cfg : PrivacyConfig := {}
  -- 2. Apply Profile Mandates (These cannot be disabled by user)
  let cfg :=
    if profile = "GDPR" then
      { cfg with
        target_faces := true, target_plates := true, target_text := true,
        confidence_threshold :=
          max 0.6 (user_overrides.confidence_threshold.getD 0.6) }
    else if profile = "HIPAA_SAFE_HARBOR" then
      { cfg with
        target_faces := true, target_plates := true, target_text := true,
        target_logos := true,
        mode := .black_box,
        confidence_threshold :=
          max 0.7 (user_overrides.confidence_threshold.getD 0.7) }
    else if profile = "CCPA" then
      { cfg with
        target_faces := true, target_plates := true,
        confidence_threshold :=
          max 0.55 (user_overrides.confidence_threshold.getD 0.55) }
    else cfg
  -- 3. Apply User Overrides (only additive)
  let cfg := if truthy user_overrides.target_logos then
    { cfg with target_logos := true } else cfg
  let cfg := if truthy user_overrides.target_text then
    { cfg with target_text := true } else cfg
  -- Mode can be changed unless HIPAA forces Black Box; an unrecognized mode
  -- raises ValueError which is swallowed (config kept unchanged).
  let cfg :=
    if profile ≠ "HIPAA_SAFE_HARBOR" then
      match user_overrides.mode with
      | some m =>
        match parseAnonymizeMode m with
        | some md => { cfg with mode := md }
        | none => cfg
      | none => cfg
    else cfg
  cfg

/-- The targets a profile's mandate block forces on, read off the
profile-mandate branches of `get_config_for_profile`. Encoded as the list of
projections forced to `true` by that branch. -/
def profileMandates (profile : String) : List (PrivacyConfig → Bool) :=
  if profile = "GDPR" then
    [PrivacyConfig.target_faces, PrivacyConfig.target_plates,
     PrivacyConfig.target_text]
  else if profile = "HIPAA_SAFE_HARBOR" then
    [PrivacyConfig.target_faces, PrivacyConfig.target_plates,
     PrivacyConfig.target_text, PrivacyConfig.target_logos]
  else if profile = "CCPA" then
    [PrivacyConfig.target_faces, PrivacyConfig.target_plates]
  else []

/-- The confidence floor a profile's mandate block applies, read off the
`max(floor, override)` expressions of `get_config_for_profile`. -/
def confidenceFloor (profile : String) : Option ℚ :=
  if profile = "GDPR" then some 0.6
  else if profile = "HIPAA_SAFE_HARBOR" then some 0.7
  else if profile = "CCPA" then some 0.55
  else none

/-! ## Job records and the worker's chunk processing
(`services/gpu-worker/main.py`, `process_chunk`) -/

/-- Job status strings used across the services. -/
inductive JobStatus where
  | QUEUED
  | CHUNKING
  | PROCESSING
  | STITCHING
  | COMPLETED
  | FAILED
  | CANCELLED
deriving DecidableEq, Repr

/-- The terminal statuses of §4.1 of the state machine. -/
def JobStatus.isTerminal : JobStatus → Bool
  | .COMPLETED => true
  | .FAILED => true
  | .CANCELLED => true
  | _ => false

/-- The Firestore job document, restricted to the fields the orchestration
logic reads and writes. The gateway creates it with `chunks_total = 0` and
`chunks_completed = 0`. -/
structure Job where
  status : JobStatus
  chunks_total : Nat := 0
  chunks_completed : Nat := 0
deriving DecidableEq, Repr

/-- Shared mutable state seen by a worker: the job document plus the blob
store, modelled as the list of blob paths currently present. -/
structure WorkerState where
  job : Job
  blobs : List String
deriving DecidableEq, Repr

/-- `input/{job_id}/{chunk_name}` (worker main.py line 91). -/
def inputBlobPath (job_id chunk_name : String) : String :=
  "input/" ++ job_id ++ "/" ++ chunk_name

/-- `output/{job_id}/{chunk_name}` (worker main.py line 128). -/
def outputBlobPath (job_id chunk_name : String) : String :=
  "output/" ++ job_id ++ "/" ++ chunk_name

/-- The transactional `update_progress` (worker main.py lines 138-143): read
the document, add 1 to `chunks_completed` unconditionally, write it back,
and return the post-increment count together with `chunks_total`. Firestore
serializes these transactions, so a single pure read-increment-write per
completion call is the exact semantics. -/
def update_progress (j : Job) : Job × Nat × Nat :=
  let new_count := j.chunks_completed + 1
  ({ j with chunks_completed := new_count }, new_count, j.chunks_total)

/-- Everything one `process_chunk` call produces: the updated shared state,
whether the missing-blob fallback fabricated a dummy input, the
post-increment counter value it observed, whether it fired the stitch
trigger, and the response status string. -/
structure ChunkCallResult where
  state : WorkerState
  dummyCreated : Bool
  postCount : Nat
  stitchTriggered : Bool
  responseStatus : String
deriving DecidableEq, Repr

/-- `process_chunk` (worker main.py lines 61-167). External operations
(download, OpenCV decode/redact/encode, upload) are modelled as succeeding;
the upload makes the output blob path present. Control-flow facts embedded
faithfully: the `status = PROCESSING` write is unguarded (line 71); a
missing input blob is replaced by a locally fabricated dummy image rather
than failing (lines 96-102); the progress increment is unconditional
(lines 137-145); the stitch trigger fires whenever `completed >= total`
(line 148), as a fire-and-forget HTTP call whose timeout error is
swallowed. -/
def process_chunk (s : WorkerState) (job_id chunk_name : String) :
    ChunkCallResult :=
  -- 1. Update Job Status to PROCESSING (unguarded write)
  let j1 : Job := { s.job with status := .PROCESSING }
  -- 3. Download from GCS, or fabricate a dummy image if the blob is missing
  let dummy := !(s.blobs.contains (inputBlobPath job_id chunk_name))
  -- 4. video inference loop (external engine, modelled as succeeding)
  -- 5. Upload Result
  let outPath := outputBlobPath job_id chunk_name
  let blobs1 := if s.blobs.contains outPath then s.blobs else outPath :: s.blobs
  -- 7. Update Progress (transactional increment)
  let (j2, completed, total) := update_progress j1
  -- 8. Check for Completion & Trigger Stitch
  let trig := decide (total ≤ completed)
  { state := { job := j2, blobs := blobs1 },
    dummyCreated := dummy,
    postCount := completed,
    stitchTriggered := trig,
    responseStatus := "chunk_processed" }

/-- A sequence of chunk-completion deliveries processed one after the other
(Firestore serializes the increments, so any concurrent schedule of the
transactional parts is equivalent to some serial order). Returns the final
state and, per call, the pair (post-increment value, stitch triggered). -/
def runCompletions (s : WorkerState) (job_id : String) :
    List String → WorkerState × List (Nat × Bool)
  | [] => (s, [])
  | name :: rest =>
    let r := process_chunk s job_id name
    let next := runCompletions r.state job_id rest
    (next.1, (r.postCount, r.stitchTriggered) :: next.2)

/-! ## Chunk naming -/

/-- `%03d` zero-padding used in the ffmpeg segment output pattern
(orchestrator main.py line 77) and in chunk names generally; exact for
indices below 1000, the regime every claim about naming lives in. -/
def pad3 (i : Nat) : String :=
  ⟨[Nat.digitChar (i / 100 % 10), Nat.digitChar (i / 10 % 10),
    Nat.digitChar (i % 10)]⟩

/-- The deterministic chunk file name `chunk_XXX.mp4`. The bypass branch of
`ingest_video` (line 68) uses the literal `"chunk_000.mp4"`, which is
`chunkFileName 0`; the split branch names come from ffmpeg's
`chunk_%03d.mp4` output pattern after the job-id is stripped (line 89). -/
def chunkFileName (i : Nat) : String :=
  "chunk_" ++ pad3 i ++ ".mp4"

/-! ## Chunk planner and ingest
(`services/orchestrator/main.py`, `ingest_video`) -/

/-- `CHUNK_DURATION = 300` (orchestrator main.py line 61). -/
def CHUNK_DURATION : ℚ := 300

/-- The `try/except` around ffprobe (lines 48-58): on probe failure the code
falls back to `duration = 0`. `none` models a failed probe. -/
def probedDuration (probe : Option ℚ) : ℚ := probe.getD 0

/-- Modelled from the documented behavior of the external
`ffmpeg -f segment -segment_time 300` call (lines 80-84): the source of
actual duration `d > 0` is cut into `⌈d/300⌉` consecutive segments (the last
one shorter), named by the `chunk_%03d.mp4` pattern ascending from 0; `glob`
plus `sorted` then yields them in that ascending name order (line 87). -/
def ffmpegSegmentNames (actualDuration : ℚ) : List String :=
  (List.range (max 1 (actualDuration / CHUNK_DURATION).ceil.toNat)).map
    chunkFileName

/-- The branch at line 64 choosing the chunk list: the single-chunk bypass
fires only when `0 < duration < 300`; otherwise (including the `duration = 0`
probe-failure fallback) the split branch runs and the planned chunks are
whatever files the external ffmpeg segmentation produced. -/
def plannedChunks (duration : ℚ) (ffmpegSegments : List String) :
    List String :=
  if 0 < duration ∧ duration < CHUNK_DURATION then ["chunk_000.mp4"]
  else ffmpegSegments

/-- One observable side effect of an ingest run, in program order. -/
inductive IngestEvent where
  | statusWrite (s : JobStatus)
  | blobUpload (path : String)
  | setChunksTotal (n : Nat)
  | dispatchTask (chunk_name : String) (index : Nat)
deriving DecidableEq, Repr

/-- Is this event the `chunks_total` write? -/
def IngestEvent.isSetTotal : IngestEvent → Bool
  | .setChunksTotal _ => true
  | _ => false

/-- Is this event a task submission to the queue? -/
def IngestEvent.isDispatch : IngestEvent → Bool
  | .dispatchTask _ _ => true
  | _ => false

/-- Is this event a chunk-bytes upload to the blob store? -/
def IngestEvent.isUpload : IngestEvent → Bool
  | .blobUpload _ => true
  | _ => false

/-- The sequence of side effects of `ingest_video` (lines 23-126), in the
order the code performs them: the unguarded `CHUNKING` status write (line
32); if the source blob is missing, a `FAILED` status write and an early
return (lines 40-43); otherwise one blob upload per planned chunk, in
planner order (lines 64-93), then the single `chunks_total` write (lines
95-97), then one task dispatch per chunk carrying (name, index) in order
(lines 100-121). A dispatch failure is caught and logged without rolling
anything back, so dispatch events model submission attempts. -/
def ingestTrace (job_id : String) (sourceExists : Bool) (duration : ℚ)
    (ffmpegSegments : List String) : List IngestEvent :=
  if sourceExists then
    let chunks := plannedChunks duration ffmpegSegments
    [.statusWrite .CHUNKING]
      ++ chunks.map (fun name => .blobUpload (inputBlobPath job_id name))
      ++ [.setChunksTotal chunks.length]
      ++ chunks.enum.map (fun p => .dispatchTask p.2 p.1)
  else
    [.statusWrite .CHUNKING, .statusWrite .FAILED]

/-! ## Stitcher (`services/orchestrator/main.py`, `stitch_video`) -/

/-- The status write at the top of `stitch_video` (line 134): an unguarded
`update({"status": "STITCHING"})`. -/
def stitch_status_entry (j : Job) : Job :=
  { j with status := .STITCHING }

/-- The status write at the end of a successful `stitch_video` (lines
178-181): an unguarded `update({"status": "COMPLETED", ...})`. -/
def stitch_status_final (j : Job) : Job :=
  { j with status := .COMPLETED }

/-! ### Chunk selection and ordering inside `stitch_video`

Blob names are modelled as lists of character code points so that Python's
code-point-lexicographic string comparison is explicit. `strCodes` converts
a Lean string literal to that representation. -/

/-- Character codes of a string. -/
def strCodes (s : String) : List Nat := s.data.map Char.toNat

/-- Does the code list begin with the pattern? (first argument: pattern). -/
def startsWithCodes : List Nat → List Nat → Bool
  | [], _ => true
  | _ :: _, [] => false
  | a :: as, b :: bs => a == b && startsWithCodes as bs

/-- Python's `pat in s` substring test on code lists. -/
def containsSubCodes (pat : List Nat) : List Nat → Bool
  | [] => pat.isEmpty
  | s@(_ :: rest) => startsWithCodes pat s || containsSubCodes pat rest

/-- Python's `s.endswith(pat)` on code lists. -/
def endsWithCodes (pat s : List Nat) : Bool :=
  startsWithCodes pat (s.drop (s.length - pat.length))

/-- The filter at line 141: `"chunk_" in b.name and b.name.endswith(".mp4")`. -/
def matchesChunkPattern (name : List Nat) : Bool :=
  containsSubCodes (strCodes "chunk_") name &&
    endsWithCodes (strCodes ".mp4") name

/-- Python's string `<`: lexicographic comparison of code points, a shorter
proper initial segment comparing smaller. -/
def lexLtCodes : List Nat → List Nat → Bool
  | [], [] => false
  | [], _ :: _ => true
  | _ :: _, [] => false
  | a :: as, b :: bs =>
    if a < b then true else if a = b then lexLtCodes as bs else false

/-- The non-strict order `list.sort` arranges by: `x ≤ y ↔ ¬ y < x`. -/
def lexLeCodes (x y : List Nat) : Bool := !(lexLtCodes y x)

/-- `x ≤ y` on names, as a proposition. -/
def NameLe (x y : List Nat) : Prop := lexLeCodes x y = true

instance : DecidableRel NameLe := fun x y =>
  inferInstanceAs (Decidable (lexLeCodes x y = true))

/-- Lines 138-142 of `stitch_video`: take the blob names listed under the
job's output prefix, keep only those matching the chunk pattern, and sort
them lexicographically by name. This list is the order in which chunk
artifacts are concatenated into the final output. -/
def stitchSelection (stored : List (List Nat)) : List (List Nat) :=
  List.insertionSort NameLe (stored.filter matchesChunkPattern)

/-- Code points of the name of chunk `i` as uploaded by the worker
(the planner's `chunkFileName`). -/
def chunkNameCodes (i : Nat) : List Nat := strCodes (chunkFileName i)

/-! ## Erasure (`services/orchestrator/main.py`, `delete_job`) -/

/-- Orchestrator-side shared state: the job document and the blob store. -/
structure OrchState where
  job : Job
  blobs : List String
deriving DecidableEq, Repr

/-- Does a blob path fall under `input/{job_id}` or `output/{job_id}` —
i.e. would `list_blobs` with those prefixes return it (lines 209-210)? -/
def blobInJob (job_id path : String) : Bool :=
  startsWithCodes (strCodes ("input/" ++ job_id)) (strCodes path) ||
    startsWithCodes (strCodes ("output/" ++ job_id)) (strCodes path)

/-- `delete_job` (lines 205-215): list every blob under the job's input and
output prefixes, delete each, and unconditionally mark the job `CANCELLED`.
Returns the new state together with the list of blobs it deleted. -/
def delete_job (job_id : String) (s : OrchState) : OrchState × List String :=
  let doomed := s.blobs.filter (blobInJob job_id)
  ({ job := { s.job with status := .CANCELLED },
     blobs := s.blobs.filter (fun p => !(blobInJob job_id p)) },
   doomed)

/-! ## Theorems -/

/-- A cancelled job about to receive a late chunk-completion signal. -/
def lateSignalState : WorkerState where
  job := { status := .CANCELLED, chunks_total := 2, chunks_completed := 1 }
  blobs := [inputBlobPath "job-1" "chunk_001.mp4"]

/-- A fresh single-chunk job, used to exercise duplicate deliveries. -/
def singleChunkState : WorkerState where
  job := { status := .PROCESSING, chunks_total := 1, chunks_completed := 0 }
  blobs := [inputBlobPath "job-1" "chunk_000.mp4"]

/-- A fresh single-chunk job whose input blob was never uploaded. -/
def missingBlobState : WorkerState where
  job := { status := .PROCESSING, chunks_total := 1, chunks_completed := 0 }
  blobs := []

/-- A fresh two-chunk job, used to exercise a duplicate-free run. -/
def twoChunkFresh : WorkerState where
  job := { status := .PROCESSING, chunks_total := 2, chunks_completed := 0 }
  blobs := [inputBlobPath "job-1" "chunk_000.mp4",
            inputBlobPath "job-1" "chunk_001.mp4"]

/-- C6: the Policy Resolver treats profile mandates as floors: every target
mandated on by the profile is on in the effective configuration regardless of
overrides; for `HIPAA_SAFE_HARBOR` the mode is always `black_box` even if the
override requests another mode; for a profile with confidence floor `f` the
effective threshold is `max(f, overridden threshold)`; and in particular GDPR
with override 0.3 yields 0.6 and with override 0.9 yields 0.9. -/
theorem policy_mandates_are_floors :
    (∀ p u, ∀ t ∈ profileMandates p, t (get_config_for_profile p u) = true) ∧
    (∀ u, (get_config_for_profile "HIPAA_SAFE_HARBOR" u).mode = .black_box) ∧
    (∀ p u f, confidenceFloor p = some f →
      (get_config_for_profile p u).confidence_threshold =
        max f (u.confidence_threshold.getD f)) ∧
    (get_config_for_profile "GDPR"
        { confidence_threshold := some 0.3 }).confidence_threshold = 0.6 ∧
    (get_config_for_profile "GDPR"
        { confidence_threshold := some 0.9 }).confidence_threshold = 0.9 := by
  refine ⟨?_, ?_, ?_, ?_, ?_⟩
  · intro p u t ht
    unfold profileMandates at ht
    rcases u with ⟨ulog, utext, umode, uconf⟩
    split_ifs at ht with h1 h2 h3 <;>
      simp only [List.mem_cons, List.not_mem_nil, or_false] at ht
    · subst h1
      rcases ht with rfl | rfl | rfl <;>
        rcases ulog with _ | bl <;> rcases utext with _ | bt <;>
        (try cases bl) <;> (try cases bt) <;>
        rcases umode with _ | m <;>
        (try rfl) <;>
        rcases hp : parseAnonymizeMode m with _ | md <;>
        simp only [get_config_for_profile, hp] <;> rfl
    · subst h2
      rcases ht with rfl | rfl | rfl | rfl <;>
        rcases ulog with _ | bl <;> rcases utext with _ | bt <;>
        (try cases bl) <;> (try cases bt) <;>
        rcases umode with _ | m <;> rfl
    · subst h3
      rcases ht with rfl | rfl <;>
        rcases ulog with _ | bl <;> rcases utext with _ | bt <;>
        (try cases bl) <;> (try cases bt) <;>
        rcases umode with _ | m <;>
        (try rfl) <;>
        rcases hp : parseAnonymizeMode m with _ | md <;>
        simp only [get_config_for_profile, hp] <;> rfl
  · intro u
    rcases u with ⟨ulog, utext, umode, uconf⟩
    rcases ulog with _ | bl <;> rcases utext with _ | bt <;>
      (try cases bl) <;> (try cases bt) <;>
      rcases umode with _ | m <;> rfl
  · intro p u f hf
    unfold confidenceFloor at hf
    rcases u with ⟨ulog, utext, umode, uconf⟩
    split_ifs at hf with h1 h2 h3
    · cases hf; subst h1
      rcases ulog with _ | bl <;> rcases utext with _ | bt <;>
        (try cases bl) <;> (try cases bt) <;>
        rcases umode with _ | m <;>
        (try rfl) <;>
        rcases hp : parseAnonymizeMode m with _ | md <;>
        simp only [get_config_for_profile, hp] <;> rfl
    · cases hf; subst h2
      rcases ulog with _ | bl <;> rcases utext with _ | bt <;>
        (try cases bl) <;> (try cases bt) <;>
        rcases umode with _ | m <;> rfl
    · cases hf; subst h3
      rcases ulog with _ | bl <;> rcases utext with _ | bt <;>
        (try cases bl) <;> (try cases bt) <;>
        rcases umode with _ | m <;>
        (try rfl) <;>
        rcases hp : parseAnonymizeMode m with _ | md <;>
        simp only [get_config_for_profile, hp] <;> rfl
  · norm_num [get_config_for_profile, truthy]
  · norm_num [get_config_for_profile, truthy]

/-- Witness for C6 at concrete inputs: GDPR mandates text redaction against
a mode-override dictionary, HIPAA keeps `black_box` against a `blur`
request, and the CCPA floor formula applies to a low override. -/
theorem policy_mandates_witness :
    PrivacyConfig.target_text ∈ profileMandates "GDPR" ∧
    PrivacyConfig.target_text
      (get_config_for_profile "GDPR" { mode := some "blur" }) = true ∧
    (get_config_for_profile "HIPAA_SAFE_HARBOR"
        { mode := some "blur" }).mode = .black_box ∧
    confidenceFloor "CCPA" = some 0.55 ∧
    (get_config_for_profile "CCPA"
        { confidence_threshold := some 0.3 }).confidence_threshold =
      max 0.55 ((some (0.3 : ℚ)).getD 0.55) :=
  ⟨by simp [profileMandates],
   policy_mandates_are_floors.1 "GDPR" { mode := some "blur" }
     PrivacyConfig.target_text (by simp [profileMandates]),
   policy_mandates_are_floors.2.1 { mode := some "blur" },
   rfl,
   policy_mandates_are_floors.2.2.1 "CCPA" { confidence_threshold := some 0.3 }
     0.55 rfl⟩

/-- C8: an override whose `mode` names an unrecognized value is ignored:
the resulting configuration is identical to the one produced with no mode
override at all, for every profile; no error is raised (the resolver is a
total function). -/
theorem unrecognized_mode_ignored (p : String) (u : UserOverrides) (m : String)
    (hm : u.mode = some m) (hbad : parseAnonymizeMode m = none) :
    get_config_for_profile p u =
      get_config_for_profile p { u with mode := none } := by
  rcases u with ⟨ulog, utext, umode, uconf⟩
  cases hm
  simp only [get_config_for_profile, hbad]

/-- Witness for C8: profile GDPR with the unrecognized mode `"sepia"`. -/
theorem unrecognized_mode_witness :
    ({ mode := some "sepia" } : UserOverrides).mode = some "sepia" ∧
    parseAnonymizeMode "sepia" = none ∧
    get_config_for_profile "GDPR" { mode := some "sepia" } =
      get_config_for_profile "GDPR"
        { ({ mode := some "sepia" } : UserOverrides) with mode := none } :=
  ⟨rfl, rfl,
   unrecognized_mode_ignored "GDPR" { mode := some "sepia" } "sepia" rfl rfl⟩

/-- C9: erasing a job twice succeeds both times, the second call deletes no
blob (everything under the job's prefixes is already gone) and changes
nothing, and the job's status is `CANCELLED` after both calls. -/
theorem erasure_idempotent (job_id : String) (s : OrchState) :
    ((delete_job job_id s).1.job.status = .CANCELLED) ∧
    ((delete_job job_id (delete_job job_id s).1).1.job.status = .CANCELLED) ∧
    ((delete_job job_id (delete_job job_id s).1).2 = []) ∧
    ((delete_job job_id (delete_job job_id s).1).1 = (delete_job job_id s).1) := by
  refine ⟨rfl, rfl, ?_, ?_⟩
  · simp [delete_job, List.filter_filter]
  · simp [delete_job, List.filter_filter]

/-- C10: a chunk-processing call whose input blob is missing does not fail
the job: it fabricates a dummy input in its place, uploads a processed
artifact to the output path, still increments `chunks_completed`, and
reports success. -/
theorem missing_chunk_counted_as_completed (s : WorkerState)
    (job_id chunk_name : String)
    (hmiss : inputBlobPath job_id chunk_name ∉ s.blobs) :
    ((process_chunk s job_id chunk_name).dummyCreated = true) ∧
    (outputBlobPath job_id chunk_name ∈
        (process_chunk s job_id chunk_name).state.blobs) ∧
    ((process_chunk s job_id chunk_name).state.job.chunks_completed =
        s.job.chunks_completed + 1) ∧
    ((process_chunk s job_id chunk_name).responseStatus = "chunk_processed") ∧
    ((process_chunk s job_id chunk_name).state.job.status ≠ .FAILED) := by
  refine ⟨?_, ?_, rfl, rfl, by simp [process_chunk, update_progress]⟩
  · simp [process_chunk, hmiss]
  · simp only [process_chunk, update_progress]
    split_ifs with h
    · simpa using h
    · simp

/-- Witness for C10: a job whose input blob was never uploaded. -/
theorem missing_chunk_witness :
    inputBlobPath "job-1" "chunk_000.mp4" ∉ missingBlobState.blobs ∧
    (process_chunk missingBlobState "job-1" "chunk_000.mp4").dummyCreated
      = true ∧
    (process_chunk missingBlobState
        "job-1" "chunk_000.mp4").state.job.chunks_completed = 1 :=
  ⟨by simp [missingBlobState],
   (missing_chunk_counted_as_completed missingBlobState "job-1" "chunk_000.mp4"
     (by simp [missingBlobState])).1,
   (missing_chunk_counted_as_completed missingBlobState "job-1" "chunk_000.mp4"
     (by simp [missingBlobState])).2.2.1⟩

/-- C2 fails on the code: the worker's status write (`process_chunk`,
line 71) and the stitcher's status writes (`stitch_video`, lines 134 and
178) are unguarded `update` calls, so a late chunk-completion signal for an
already-`CANCELLED` job rewrites its status to `PROCESSING`, and a stitch
request for a cancelled job rewrites it to `STITCHING` and then
`COMPLETED`. -/
theorem cancelled_job_revived_by_late_signal :
    lateSignalState.job.status = .CANCELLED ∧
    JobStatus.CANCELLED.isTerminal = true ∧
    (process_chunk lateSignalState "job-1" "chunk_001.mp4").state.job.status
      = .PROCESSING ∧
    (stitch_status_entry { status := .CANCELLED }).status = .STITCHING ∧
    (stitch_status_final { status := .CANCELLED }).status = .COMPLETED :=
  ⟨rfl, rfl, rfl, rfl, rfl⟩

/-- C3 fails on the code: `update_progress` increments unconditionally, so a
duplicate (redelivered) completion signal pushes `chunks_completed` past
`chunks_total`: with one planned chunk, two deliveries of `chunk_000` leave
the counter at 2 > 1. -/
theorem duplicate_completion_exceeds_total :
    ((runCompletions singleChunkState "job-1"
        ["chunk_000.mp4", "chunk_000.mp4"]).1.job.chunks_completed = 2) ∧
    ((runCompletions singleChunkState "job-1"
        ["chunk_000.mp4", "chunk_000.mp4"]).1.job.chunks_total = 1) ∧
    ¬ (2 ≤ 1) :=
  ⟨rfl, rfl, by omega⟩

/-- Per-call observations of a serialized run of completion deliveries: the
i-th call observes post-increment value `chunks_completed + i + 1` and fires
the stitch trigger iff that value is at least `chunks_total`. -/
lemma runCompletions_out (s : WorkerState) (job_id : String)
    (names : List String) :
    (runCompletions s job_id names).2 =
      (List.range names.length).map
        (fun i => (s.job.chunks_completed + i + 1,
          decide (s.job.chunks_total ≤ s.job.chunks_completed + i + 1))) := by
  induction names generalizing s with
  | nil => rfl
  | cons name rest ih =>
    have h1 : (runCompletions s job_id (name :: rest)).2 =
        (s.job.chunks_completed + 1,
          decide (s.job.chunks_total ≤ s.job.chunks_completed + 1)) ::
          (runCompletions (process_chunk s job_id name).state job_id rest).2 :=
      rfl
    have h2 : (process_chunk s job_id name).state.job.chunks_completed =
        s.job.chunks_completed + 1 := rfl
    have h3 : (process_chunk s job_id name).state.job.chunks_total =
        s.job.chunks_total := rfl
    rw [h1, ih, h2, h3, List.length_cons, List.range_succ_eq_map,
      List.map_cons, List.map_map]
    refine congrArg₂ _ (by simp) (List.map_congr_left ?_)
    intro i hi
    have ha : s.job.chunks_completed + 1 + i + 1 =
        s.job.chunks_completed + Nat.succ i + 1 := by omega
    simp only [Function.comp_apply, ha]

/-- How many indices `i < k` satisfy `i + 1 = t`: one exactly when
`1 ≤ t ≤ k`, zero otherwise. -/
lemma length_filter_range_shift (k t : Nat) :
    ((List.range k).filter (fun i => i + 1 == t)).length =
      if 0 < t ∧ t ≤ k then 1 else 0 := by
  induction k with
  | zero =>
    simp only [List.range_zero, List.filter_nil, List.length_nil]
    split_ifs <;> omega
  | succ k ih =>
    rw [List.range_succ, List.filter_append, List.length_append, ih]
    by_cases h : k + 1 = t
    · have hb : (fun i => i + 1 == t) k = true := by simp [h]
      simp only [List.filter_cons, List.filter_nil, hb, if_true,
        List.length_cons, List.length_nil]
      split_ifs <;> omega
    · have hb : (fun i => i + 1 == t) k = false := by simp [h]
      simp only [List.filter_cons, List.filter_nil, hb, Bool.false_eq_true,
        if_false, List.length_nil]
      split_ifs <;> omega

/-- C1 fails on the code: with one planned chunk, a duplicate delivery of
`chunk_000` makes the second completion call observe post-increment value
2 ≠ chunks_total = 1, yet it still fires the stitch trigger, because the
code's condition is `completed >= total` (worker main.py line 148). -/
theorem duplicate_completion_retriggers_stitch :
    ((runCompletions singleChunkState "job-1"
        ["chunk_000.mp4", "chunk_000.mp4"]).2 = [(1, true), (2, true)]) ∧
    singleChunkState.job.chunks_total = 1 ∧ (2 : Nat) ≠ 1 :=
  ⟨rfl, rfl, by omega⟩

/-- C1 amended: a completion call fires the stitch trigger iff its
post-increment value is at least `chunks_total` (not only when it equals
it). Consequently at most one call ever observes exactly `chunks_total`,
and in a duplicate-free run — exactly `chunks_total` deliveries starting
from a zero counter — precisely one call observes it (and triggers); but a
duplicate delivery pushing the counter above the total triggers the
Stitcher again. -/
theorem stitch_trigger_characterization (s : WorkerState) (job_id : String)
    (names : List String) (h0 : s.job.chunks_completed = 0) :
    (∀ pb ∈ (runCompletions s job_id names).2,
        pb.2 = decide (s.job.chunks_total ≤ pb.1)) ∧
    (((runCompletions s job_id names).2.filter
        (fun pb => pb.1 == s.job.chunks_total)).length ≤ 1) ∧
    (names.length = s.job.chunks_total → 0 < s.job.chunks_total →
      ((runCompletions s job_id names).2.filter
        (fun pb => pb.1 == s.job.chunks_total)).length = 1) := by
  rw [runCompletions_out, h0]
  simp only [Nat.zero_add]
  refine ⟨?_, ?_, ?_⟩
  · intro pb hpb
    obtain ⟨i, _, rfl⟩ := List.mem_map.mp hpb
    rfl
  · rw [List.filter_map, List.length_map]
    have : ∀ i : Nat,
        ((fun pb : Nat × Bool => pb.1 == s.job.chunks_total) ∘
          (fun i => (i + 1,
            decide (s.job.chunks_total ≤ i + 1)))) i =
        (fun i => i + 1 == s.job.chunks_total) i := fun i => rfl
    rw [List.filter_congr (fun i _ => this i), length_filter_range_shift]
    split_ifs <;> omega
  · intro hlen hpos
    rw [List.filter_map, List.length_map]
    have : ∀ i : Nat,
        ((fun pb : Nat × Bool => pb.1 == s.job.chunks_total) ∘
          (fun i => (i + 1,
            decide (s.job.chunks_total ≤ i + 1)))) i =
        (fun i => i + 1 == s.job.chunks_total) i := fun i => rfl
    rw [List.filter_congr (fun i _ => this i), length_filter_range_shift]
    rw [if_pos ⟨hpos, by omega⟩]

/-- Witness for the amended C1: a duplicate-free two-chunk run, where only
the second (final) call observes the total. -/
theorem stitch_trigger_witness :
    twoChunkFresh.job.chunks_completed = 0 ∧
    (∀ pb ∈ (runCompletions twoChunkFresh "job-1"
        ["chunk_000.mp4", "chunk_001.mp4"]).2,
      pb.2 = decide (twoChunkFresh.job.chunks_total ≤ pb.1)) ∧
    ((runCompletions twoChunkFresh "job-1"
        ["chunk_000.mp4", "chunk_001.mp4"]).2.filter
      (fun pb => pb.1 == twoChunkFresh.job.chunks_total)).length = 1 :=
  ⟨rfl,
   (stitch_trigger_characterization twoChunkFresh "job-1"
     ["chunk_000.mp4", "chunk_001.mp4"] rfl).1,
   (stitch_trigger_characterization twoChunkFresh "job-1"
     ["chunk_000.mp4", "chunk_001.mp4"] rfl).2.2 rfl (by decide)⟩

/-- In a list that splits as `A ++ B` where no element of `A` satisfies `q`
and no element of `B` satisfies `p`, any index carrying `p` precedes any
index carrying `q`. -/
lemma index_lt_of_append (L A B : List IngestEvent) (hL : L = A ++ B)
    (p q : IngestEvent → Bool)
    (hA : ∀ e ∈ A, q e = false) (hB : ∀ e ∈ B, p e = false)
    (i j : Nat) (hi : i < L.length) (hj : j < L.length)
    (hp : p (L.get ⟨i, hi⟩) = true)
    (hq : q (L.get ⟨j, hj⟩) = true) : i < j := by
  subst hL
  rcases Nat.lt_or_ge i A.length with hiA | hiA
  · rcases Nat.lt_or_ge j A.length with hjA | hjA
    · exfalso
      rw [List.get_eq_getElem, List.getElem_append_left hjA] at hq
      exact absurd hq (by simp [hA _ (A.getElem_mem hjA)])
    · exact Nat.lt_of_lt_of_le hiA hjA
  · exfalso
    rw [List.get_eq_getElem, List.getElem_append_right hiA] at hp
    exact absurd hp (by simp [hB _ (B.getElem_mem _)])

/-- C4: in an ingest run that gets past downloading the source, the
`chunks_total` field is written exactly once, with the number of planned
chunks, and that write — as well as every chunk-bytes upload — occurs
strictly before any chunk task is dispatched to the queue. -/
theorem chunks_total_once_before_dispatch (job_id : String) (duration : ℚ)
    (segs : List String) :
    ((ingestTrace job_id true duration segs).filter IngestEvent.isSetTotal =
      [.setChunksTotal (plannedChunks duration segs).length]) ∧
    (∀ i j (hi : i < (ingestTrace job_id true duration segs).length)
        (hj : j < (ingestTrace job_id true duration segs).length),
      ((ingestTrace job_id true duration segs).get ⟨i, hi⟩).isUpload = true →
      ((ingestTrace job_id true duration segs).get ⟨j, hj⟩).isDispatch = true →
      i < j) ∧
    (∀ i j (hi : i < (ingestTrace job_id true duration segs).length)
        (hj : j < (ingestTrace job_id true duration segs).length),
      ((ingestTrace job_id true duration segs).get ⟨i, hi⟩).isSetTotal = true →
      ((ingestTrace job_id true duration segs).get ⟨j, hj⟩).isDispatch = true →
      i < j) := by
  have htr : ingestTrace job_id true duration segs =
      (IngestEvent.statusWrite .CHUNKING ::
        ((plannedChunks duration segs).map
          (fun name => IngestEvent.blobUpload (inputBlobPath job_id name)) ++
         [IngestEvent.setChunksTotal (plannedChunks duration segs).length])) ++
      (plannedChunks duration segs).enum.map
        (fun p => IngestEvent.dispatchTask p.2 p.1) := by
    simp [ingestTrace]
  have hA : ∀ e ∈ IngestEvent.statusWrite JobStatus.CHUNKING ::
      ((plannedChunks duration segs).map
        (fun name => IngestEvent.blobUpload (inputBlobPath job_id name)) ++
       [IngestEvent.setChunksTotal (plannedChunks duration segs).length]),
      e.isDispatch = false := by
    intro e he
    simp only [List.mem_cons, List.mem_append, List.mem_map,
      List.not_mem_nil, or_false] at he
    rcases he with rfl | ⟨a, _, rfl⟩ | rfl <;> rfl
  have hB : ∀ e ∈ (plannedChunks duration segs).enum.map
      (fun p => IngestEvent.dispatchTask p.2 p.1),
      e.isUpload = false ∧ e.isSetTotal = false := by
    intro e he
    simp only [List.mem_map] at he
    obtain ⟨a, _, rfl⟩ := he
    exact ⟨rfl, rfl⟩
  have e1 : List.filter IngestEvent.isSetTotal
      ((plannedChunks duration segs).map
        (fun name => IngestEvent.blobUpload (inputBlobPath job_id name)))
      = [] := by
    rw [List.filter_eq_nil_iff]
    intro a ha
    obtain ⟨x, _, rfl⟩ := List.mem_map.mp ha
    simp [IngestEvent.isSetTotal]
  have e2 : List.filter IngestEvent.isSetTotal
      ((plannedChunks duration segs).enum.map
        (fun p => IngestEvent.dispatchTask p.2 p.1)) = [] := by
    rw [List.filter_eq_nil_iff]
    intro a ha
    obtain ⟨x, _, rfl⟩ := List.mem_map.mp ha
    simp [IngestEvent.isSetTotal]
  refine ⟨?_, ?_, ?_⟩
  · rw [htr]
    simp [List.cons_append, List.filter_append, List.filter_cons, e1, e2,
      IngestEvent.isSetTotal]
  · intro i j hi hj hpi hqj
    exact index_lt_of_append _ _ _ htr
      IngestEvent.isUpload IngestEvent.isDispatch
      hA (fun e he => (hB e he).1) i j hi hj hpi hqj
  · intro i j hi hj hpi hqj
    exact index_lt_of_append _ _ _ htr
      IngestEvent.isSetTotal IngestEvent.isDispatch
      hA (fun e he => (hB e he).2) i j hi hj hpi hqj

/-- Witness for C4: a 100-second source (single-chunk bypass). The upload
sits at index 1 and the `chunks_total` write at index 2, both before the
dispatch at index 3. -/
theorem ingest_order_witness :
    (((ingestTrace "job-1" true 100 []).get ⟨1, by decide⟩).isUpload
      = true) ∧
    (((ingestTrace "job-1" true 100 []).get ⟨2, by decide⟩).isSetTotal
      = true) ∧
    (((ingestTrace "job-1" true 100 []).get ⟨3, by decide⟩).isDispatch
      = true) ∧
    (1 : Nat) < 3 ∧ (2 : Nat) < 3 :=
  ⟨by decide, by decide, by decide,
   (chunks_total_once_before_dispatch "job-1" 100 []).2.1 1 3
     (by decide) (by decide) (by decide) (by decide),
   (chunks_total_once_before_dispatch "job-1" 100 []).2.2 2 3
     (by decide) (by decide) (by decide) (by decide)⟩

/-- C5 fails on the code for the probe-failure case: the `try/except` sets
`duration = 0`, and the branch `duration > 0 and duration < 300` is then
false, so the code takes the *split* path, not the single-chunk bypass.
ffmpeg segments a 600-second source into two chunks, so the planner emits
2 chunks, not exactly one `chunk_000`. -/
theorem probe_failure_takes_split_path :
    probedDuration none = 0 ∧
    ffmpegSegmentNames 600 = ["chunk_000.mp4", "chunk_001.mp4"] ∧
    plannedChunks (probedDuration none) (ffmpegSegmentNames 600) =
      ["chunk_000.mp4", "chunk_001.mp4"] ∧
    (plannedChunks (probedDuration none) (ffmpegSegmentNames 600)).length
      ≠ 1 := by
  have h2 : (600 : ℚ) / CHUNK_DURATION = 2 := by norm_num [CHUNK_DURATION]
  have hseg : ffmpegSegmentNames 600 = ["chunk_000.mp4", "chunk_001.mp4"] := by
    unfold ffmpegSegmentNames
    rw [h2]
    decide
  refine ⟨rfl, hseg, ?_, ?_⟩
  · rw [hseg]
    decide
  · rw [hseg]
    decide

/-- C5 amended: the single-chunk bypass fires exactly for probed durations
strictly between 0 and 300: then the planner emits exactly one chunk named
`chunk_000`. On a probe failure (duration unknown, fallback 0) the planner
instead takes the split path, emitting exactly the ffmpeg segmentation of
the source — one chunk only when the source fits in a single segment. -/
theorem planner_bypass_characterization (d : ℚ) (segs : List String) :
    (0 < d → d < CHUNK_DURATION →
      plannedChunks d segs = [chunkFileName 0]) ∧
    plannedChunks (probedDuration none) segs = segs := by
  constructor
  · intro h1 h2
    rw [plannedChunks, if_pos ⟨h1, h2⟩]
    decide
  · simp [plannedChunks, probedDuration]

/-- Witness for the amended C5: a 100-second probed duration takes the
bypass and yields the single chunk `chunk_000.mp4`. -/
theorem planner_bypass_witness :
    ((0 : ℚ) < 100) ∧ ((100 : ℚ) < CHUNK_DURATION) ∧
    plannedChunks 100 ["stray.mp4"] = [chunkFileName 0] :=
  ⟨by norm_num, by norm_num [CHUNK_DURATION],
   (planner_bypass_characterization 100 ["stray.mp4"]).1 (by norm_num)
     (by norm_num [CHUNK_DURATION])⟩

/-- Strict lexicographic comparison is asymmetric. -/
lemma lexLtCodes_asymm : ∀ x y : List Nat,
    lexLtCodes x y = true → lexLtCodes y x = false
  | [], [] => by simp [lexLtCodes]
  | [], _ :: _ => by simp [lexLtCodes]
  | _ :: _, [] => by simp [lexLtCodes]
  | a :: as, b :: bs => by
    simp only [lexLtCodes]
    split_ifs <;> intro h <;>
      first
        | rfl
        | omega
        | exact lexLtCodes_asymm as bs h
        | simp_all

/-- Strict lexicographic comparison is transitive. -/
lemma lexLtCodes_trans : ∀ x y z : List Nat,
    lexLtCodes x y = true → lexLtCodes y z = true → lexLtCodes x z = true
  | [], [], _ => by simp [lexLtCodes]
  | [], _ :: _, [] => by simp [lexLtCodes]
  | [], _ :: _, _ :: _ => by simp [lexLtCodes]
  | _ :: _, [], _ => by simp [lexLtCodes]
  | _ :: _, _ :: _, [] => by simp [lexLtCodes]
  | a :: as, b :: bs, c :: cs => by
    simp only [lexLtCodes]
    split_ifs <;> intro p q <;>
      first
        | rfl
        | omega
        | exact lexLtCodes_trans as bs cs p q
        | simp_all

/-- Two lists neither of which is lexicographically below the other are
equal. -/
lemma lexLtCodes_conn : ∀ x y : List Nat,
    lexLtCodes x y = false → lexLtCodes y x = false → x = y
  | [], [] => by intro _ _; rfl
  | [], _ :: _ => by simp [lexLtCodes]
  | _ :: _, [] => by simp [lexLtCodes]
  | a :: as, b :: bs => by
    simp only [lexLtCodes]
    split_ifs <;> intro p q <;>
      first
        | omega
        | simp_all
        | (have hab : a = b := by omega
           subst hab
           exact congrArg (List.cons a) (lexLtCodes_conn as bs p q))

instance : IsTotal (List Nat) NameLe where
  total x y := by
    unfold NameLe lexLeCodes
    cases h : lexLtCodes y x with
    | false => exact Or.inl (by simp [h])
    | true => exact Or.inr (by simp [lexLtCodes_asymm y x h])

instance : IsTrans (List Nat) NameLe where
  trans x y z hxy hyz := by
    unfold NameLe lexLeCodes at hxy hyz ⊢
    simp only [Bool.not_eq_true'] at hxy hyz ⊢
    cases h : lexLtCodes z x with
    | false => rfl
    | true =>
      exfalso
      cases h3 : lexLtCodes y z with
      | false =>
        have hzy : z = y := lexLtCodes_conn z y hyz h3
        rw [hzy] at h
        simp [h] at hxy
      | true =>
        have := lexLtCodes_trans y z x h3 h
        simp [this] at hxy

instance : IsAntisymm (List Nat) NameLe where
  antisymm x y hxy hyx := by
    simp only [NameLe, lexLeCodes, Bool.not_eq_true'] at hxy hyx
    exact lexLtCodes_conn x y hyx hxy

/-- `Nat.digitChar` on a decimal digit is the ASCII code `48 + d`. -/
lemma digitChar_toNat (d : Nat) (hd : d < 10) :
    (Nat.digitChar d).toNat = 48 + d := by
  interval_cases d <;> rfl

/-- The code points of `chunk_XXX.mp4`, digit by digit. -/
lemma chunkNameCodes_eq (i : Nat) :
    chunkNameCodes i =
      [99, 104, 117, 110, 107, 95,
       48 + i / 100 % 10, 48 + i / 10 % 10, 48 + i % 10,
       46, 109, 112, 52] := by
  have h1 := digitChar_toNat (i / 100 % 10) (Nat.mod_lt _ (by norm_num))
  have h2 := digitChar_toNat (i / 10 % 10) (Nat.mod_lt _ (by norm_num))
  have h3 := digitChar_toNat (i % 10) (Nat.mod_lt _ (by norm_num))
  have hpre : ("chunk_".data).map Char.toNat =
      [99, 104, 117, 110, 107, 95] := rfl
  have hsuf : ((".mp4").data).map Char.toNat = [46, 109, 112, 52] := rfl
  have hpad : (pad3 i).data =
      [Nat.digitChar (i / 100 % 10), Nat.digitChar (i / 10 % 10),
       Nat.digitChar (i % 10)] := rfl
  unfold chunkNameCodes chunkFileName strCodes
  have happ : ∀ a b : String, (a ++ b).data = a.data ++ b.data :=
    fun a b => rfl
  rw [happ, happ, hpad, List.map_append, List.map_append, hpre, hsuf]
  simp only [List.map_cons, List.map_nil, h1, h2, h3]
  rfl

/-- Comparing lists with equal heads reduces to comparing the tails. -/
lemma lexLtCodes_cons_self {a : Nat} {as bs : List Nat} :
    lexLtCodes (a :: as) (a :: bs) = lexLtCodes as bs := by
  simp [lexLtCodes]

/-- A list with a smaller head is lexicographically smaller. -/
lemma lexLtCodes_cons_lt {a b : Nat} {as bs : List Nat} (h : a < b) :
    lexLtCodes (a :: as) (b :: bs) = true := by
  simp [lexLtCodes, h]

/-- Chunk names are strictly increasing in the index (below the padding
width limit of 1000). -/
lemma chunkNameCodes_lt (i j : Nat) (hij : i < j) (hj : j < 1000) :
    lexLtCodes (chunkNameCodes i) (chunkNameCodes j) = true := by
  have hi : i < 1000 := lt_trans hij hj
  rw [chunkNameCodes_eq, chunkNameCodes_eq]
  rw [lexLtCodes_cons_self, lexLtCodes_cons_self, lexLtCodes_cons_self,
    lexLtCodes_cons_self, lexLtCodes_cons_self, lexLtCodes_cons_self]
  rcases Nat.lt_trichotomy (i / 100 % 10) (j / 100 % 10) with h1 | h1 | h1
  · exact lexLtCodes_cons_lt (by omega)
  · rw [show 48 + i / 100 % 10 = 48 + j / 100 % 10 from by omega,
      lexLtCodes_cons_self]
    rcases Nat.lt_trichotomy (i / 10 % 10) (j / 10 % 10) with h2 | h2 | h2
    · exact lexLtCodes_cons_lt (by omega)
    · rw [show 48 + i / 10 % 10 = 48 + j / 10 % 10 from by omega,
        lexLtCodes_cons_self]
      exact lexLtCodes_cons_lt (by omega)
    · exact absurd h2 (by omega)
  · exact absurd h1 (by omega)

/-- The planner's emission order, as a list of stored names, is already
sorted for the stitcher's comparison. -/
lemma sorted_chunkNames (n : Nat) (hn : n ≤ 1000) :
    List.Sorted NameLe ((List.range n).map chunkNameCodes) := by
  have h : ((List.range n).map chunkNameCodes).Pairwise NameLe := by
    rw [List.pairwise_map]
    refine List.Pairwise.imp_of_mem ?_ (List.pairwise_lt_range n)
    intro a b ha hb hab
    have hb1000 : b < 1000 := Nat.lt_of_lt_of_le (List.mem_range.mp hb) hn
    have hlt := chunkNameCodes_lt a b hab hb1000
    unfold NameLe lexLeCodes
    simp [lexLtCodes_asymm _ _ hlt]
  exact h

/-- Every chunk name passes the stitcher's filter. -/
lemma chunkName_matches (i : Nat) :
    matchesChunkPattern (chunkNameCodes i) = true := by
  rw [chunkNameCodes_eq]
  unfold matchesChunkPattern
  have hpat : strCodes "chunk_" = [99, 104, 117, 110, 107, 95] := rfl
  have hsuf : strCodes ".mp4" = [46, 109, 112, 52] := rfl
  rw [hpat, hsuf, Bool.and_eq_true]
  constructor
  · simp [containsSubCodes, startsWithCodes]
  · simp [endsWithCodes, startsWithCodes]

/-- C7: for any set of stored output artifacts that consists of the
planner's chunk names for a job of at most 1000 chunks — in any arrival
permutation — plus stray objects that do not match the chunk pattern, the
Stitcher's selection (filter by chunk pattern, then sort lexicographically
by name) is exactly the planner's ascending emission order. -/
theorem stitcher_restores_planner_order (n : Nat) (hn : n ≤ 1000)
    (stored strays : List (List Nat))
    (hperm : stored.Perm ((List.range n).map chunkNameCodes ++ strays))
    (hstrays : ∀ s ∈ strays, matchesChunkPattern s = false) :
    stitchSelection stored = (List.range n).map chunkNameCodes := by
  have hfil : (stored.filter matchesChunkPattern).Perm
      ((List.range n).map chunkNameCodes) := by
    have hmap : ((List.range n).map chunkNameCodes).filter matchesChunkPattern
        = (List.range n).map chunkNameCodes :=
      List.filter_eq_self.mpr (by
        intro a ha
        obtain ⟨x, _, rfl⟩ := List.mem_map.mp ha
        simp [chunkName_matches x])
    have hstr : strays.filter matchesChunkPattern = [] :=
      List.filter_eq_nil_iff.mpr (by
        intro a ha
        simp [hstrays a ha])
    have h := hperm.filter matchesChunkPattern
    rwa [List.filter_append, hmap, hstr, List.append_nil] at h
  unfold stitchSelection
  exact List.eq_of_perm_of_sorted
    ((List.perm_insertionSort NameLe _).trans hfil)
    (List.sorted_insertionSort NameLe _)
    (sorted_chunkNames n hn)

/-- Witness for C7: three chunks arriving in the order 2, 0, 1 together with
a stray `final.mp4` artifact; the stitcher reorders them to 0, 1, 2. -/
theorem stitcher_order_witness :
    ([chunkNameCodes 2, strCodes "final.mp4", chunkNameCodes 0,
        chunkNameCodes 1].Perm
      ((List.range 3).map chunkNameCodes ++ [strCodes "final.mp4"])) ∧
    (∀ s ∈ [strCodes "final.mp4"], matchesChunkPattern s = false) ∧
    stitchSelection [chunkNameCodes 2, strCodes "final.mp4", chunkNameCodes 0,
        chunkNameCodes 1] = (List.range 3).map chunkNameCodes :=
  ⟨by decide, by decide,
   stitcher_restores_planner_order 3 (by norm_num)
     [chunkNameCodes 2, strCodes "final.mp4", chunkNameCodes 0,
      chunkNameCodes 1]
     [strCodes "final.mp4"] (by decide) (by decide)⟩

end PrivacyScrub
